import Mathlib

/-!
Verification development for the llamacontroller control plane.

Shallow embedding of the core components (ModelLifecycleManager,
ProcessRegistry, GpuDetector) translated from the Python sources in
src/llamacontroller/core, together with theorems checking the
specification's testable properties against that embedding.

Conventions:
* Python strings are modelled as `String` or `List Char`.
* `datetime` values are modelled as `Nat` counters whose `isoformat`
  rendering is the decimal representation (`natRepr`), so that
  `fromisoformat` is decimal parsing; the two are mutually inverse
  exactly as the real pair is on valid datetimes.
* Machine integers do not overflow in any code path modelled here, so
  `Nat`/`Int` are used directly.
* Fallible operations return `Option`/`Except`; exception propagation
  in Python corresponds to the `error` branch.
-/

set_option autoImplicit false

namespace LlamaController

/-- Decidable equality for `Except`, used to evaluate concrete
instances of fallible operations. -/
instance {ε α : Type} [DecidableEq ε] [DecidableEq α] :
    DecidableEq (Except ε α) := fun x y =>
  match x, y with
  | Except.ok a, Except.ok b =>
    if h : a = b then isTrue (by rw [h])
    else isFalse fun hc => h (Except.ok.inj hc)
  | Except.error a, Except.error b =>
    if h : a = b then isTrue (by rw [h])
    else isFalse fun hc => h (Except.error.inj hc)
  | Except.ok _, Except.error _ => isFalse Except.noConfusion
  | Except.error _, Except.ok _ => isFalse Except.noConfusion

/-! ### Decimal digits

Machinery shared by the registry (datetime isoformat round trip) and
resource key normalization (rendering and parsing GPU indices). -/

/-- The decimal digit character for a value below ten. -/
def toDigitChar : Nat → Char
  | 0 => '0'
  | 1 => '1'
  | 2 => '2'
  | 3 => '3'
  | 4 => '4'
  | 5 => '5'
  | 6 => '6'
  | 7 => '7'
  | 8 => '8'
  | 9 => '9'
  | _ => '*'

/-- Numeric value of a digit character. -/
def digitVal (c : Char) : Nat := c.toNat - 48

/-- Little-endian decimal digits, fuel-bounded so the recursion is
structural (any fuel at least the number itself is enough). -/
def natDigitsRevF : Nat → Nat → List Char
  | 0, _ => []
  | fuel + 1, n =>
    if n = 0 then [] else toDigitChar (n % 10) :: natDigitsRevF fuel (n / 10)

/-- Little-endian decimal digits of a positive number (empty for zero). -/
def natDigitsRev (n : Nat) : List Char := natDigitsRevF n n

theorem natDigitsRevF_congr :
    ∀ (f₁ : Nat), ∀ {f₂ n : Nat}, n ≤ f₁ → n ≤ f₂ →
      natDigitsRevF f₁ n = natDigitsRevF f₂ n := by
  intro f₁
  induction f₁ with
  | zero =>
    intro f₂ n h1 _
    interval_cases n
    cases f₂ <;> simp [natDigitsRevF]
  | succ f ih =>
    intro f₂ n h1 h2
    by_cases hn : n = 0
    · subst hn
      cases f₂ <;> simp [natDigitsRevF]
    · cases f₂ with
      | zero => omega
      | succ f' =>
        have hlt : n / 10 < n := Nat.div_lt_self (Nat.pos_of_ne_zero hn) (by decide)
        rw [natDigitsRevF, natDigitsRevF, if_neg hn, if_neg hn]
        congr 1
        exact ih (by omega) (by omega)

/-- The recurrence the Python loop satisfies, independent of fuel. -/
theorem natDigitsRev_eq (n : Nat) :
    natDigitsRev n =
      if n = 0 then [] else toDigitChar (n % 10) :: natDigitsRev (n / 10) := by
  by_cases hn : n = 0
  · subst hn; rfl
  · rw [if_neg hn, natDigitsRev, natDigitsRev]
    cases n with
    | zero => exact absurd rfl hn
    | succ m =>
      rw [natDigitsRevF, if_neg hn]
      have hlt : (m + 1) / 10 < m + 1 :=
        Nat.div_lt_self (Nat.succ_pos m) (by decide)
      rw [natDigitsRevF_congr m (by omega) (le_refl _)]

/-- Decimal rendering of a natural number as a character list. -/
def natRepr (n : Nat) : List Char :=
  if n = 0 then ['0'] else (natDigitsRev n).reverse

/-- Accumulating decimal parser over digit characters. -/
def digitsToNatAux (acc : Nat) : List Char → Nat
  | [] => acc
  | c :: cs => digitsToNatAux (acc * 10 + digitVal c) cs

/-- Parse a nonempty all-digit character list as a natural number. -/
def parseDigits (cs : List Char) : Option Nat :=
  if cs ≠ [] ∧ cs.all Char.isDigit then some (digitsToNatAux 0 cs) else none

theorem digitVal_toDigitChar {m : Nat} (h : m < 10) :
    digitVal (toDigitChar m) = m := by
  interval_cases m <;> decide

theorem isDigit_toDigitChar {m : Nat} (h : m < 10) :
    (toDigitChar m).isDigit = true := by
  interval_cases m <;> decide

theorem natDigitsRev_all_digits (n : Nat) :
    ∀ c ∈ natDigitsRev n, c.isDigit = true := by
  induction n using Nat.strong_induction_on with
  | _ n ih =>
    intro c hc
    rw [natDigitsRev_eq] at hc
    by_cases h : n = 0
    · simp [h] at hc
    · rw [if_neg h, List.mem_cons] at hc
      rcases hc with hc | hc
      · subst hc
        exact isDigit_toDigitChar (Nat.mod_lt _ (by decide))
      · exact ih (n / 10) (Nat.div_lt_self (Nat.pos_of_ne_zero h) (by decide)) c hc

theorem digitsToNatAux_nil (acc : Nat) : digitsToNatAux acc [] = acc := rfl

theorem digitsToNatAux_singleton (acc : Nat) (c : Char) :
    digitsToNatAux acc [c] = acc * 10 + digitVal c := rfl

theorem digitsToNatAux_append (acc : Nat) (l₁ l₂ : List Char) :
    digitsToNatAux acc (l₁ ++ l₂) = digitsToNatAux (digitsToNatAux acc l₁) l₂ := by
  induction l₁ generalizing acc with
  | nil => rfl
  | cons c cs ih => exact ih (acc * 10 + digitVal c)

theorem digitsToNatAux_reverse_natDigitsRev (n : Nat) :
    ∀ acc, digitsToNatAux acc (natDigitsRev n).reverse
      = acc * 10 ^ (natDigitsRev n).length + n := by
  induction n using Nat.strong_induction_on with
  | _ n ih =>
    intro acc
    rw [natDigitsRev_eq]
    by_cases h : n = 0
    · subst h
      simp [digitsToNatAux_nil]
    · rw [if_neg h]
      simp only [List.reverse_cons, List.length_cons]
      rw [digitsToNatAux_append,
        ih (n / 10) (Nat.div_lt_self (Nat.pos_of_ne_zero h) (by decide)) acc,
        digitsToNatAux_singleton,
        digitVal_toDigitChar (Nat.mod_lt n (by decide)), pow_succ]
      have hexp : (acc * 10 ^ (natDigitsRev (n / 10)).length + n / 10) * 10
          = acc * (10 ^ (natDigitsRev (n / 10)).length * 10) + n / 10 * 10 := by
        ring
      rw [hexp, Nat.add_assoc]
      congr 1
      omega

/-- Decimal parsing is a left inverse of decimal rendering. -/
theorem parseDigits_natRepr (n : Nat) : parseDigits (natRepr n) = some n := by
  by_cases h : n = 0
  · subst h; rfl
  · have hne : natDigitsRev n ≠ [] := by
      rw [natDigitsRev_eq, if_neg h]; simp
    rw [natRepr, if_neg h, parseDigits, if_pos]
    · rw [digitsToNatAux_reverse_natDigitsRev n 0]
      simp
    · constructor
      · simpa using hne
      · rw [List.all_eq_true]
        intro c hc
        exact natDigitsRev_all_digits n c (List.mem_reverse.mp hc)

theorem natRepr_all_digits (n : Nat) : ∀ c ∈ natRepr n, c.isDigit = true := by
  intro c hc
  rw [natRepr] at hc
  by_cases h : n = 0
  · simp [h] at hc; subst hc; rfl
  · rw [if_neg h, List.mem_reverse] at hc
    exact natDigitsRev_all_digits n c hc

theorem isDigit_ne_comma {c : Char} (h : c.isDigit = true) : c ≠ ',' := by
  intro he; subst he; exact absurd h (by decide)

theorem isDigit_not_whitespace {c : Char} (h : c.isDigit = true) :
    c.isWhitespace = false := by
  by_contra hw
  rw [Bool.not_eq_false] at hw
  simp only [Char.isWhitespace, Bool.or_eq_true, decide_eq_true_eq] at hw
  rcases hw with ((hw | hw) | hw) | hw <;> subst hw <;> exact absurd h (by decide)

/-! ### Character list utilities

Models of the Python string operations used by the sources:
`str.strip`, `str.split`, `','.join`, the `in` substring test and
`str.lower`. -/

/-- Model of Python `str.strip()`: drop whitespace from both ends. -/
def stripChars (l : List Char) : List Char :=
  ((l.dropWhile Char.isWhitespace).reverse.dropWhile Char.isWhitespace).reverse

/-- Model of Python `s.split(',')`. -/
def splitComma : List Char → List (List Char)
  | [] => [[]]
  | c :: cs =>
    let r := splitComma cs
    if c = ',' then [] :: r
    else (c :: r.headD []) :: r.tail

/-- Model of Python `','.join(parts)`. -/
def joinComma : List (List Char) → List Char
  | [] => []
  | [p] => p
  | p :: q :: ps => p ++ ',' :: joinComma (q :: ps)

/-- Model of the Python substring test `needle in hay`. -/
def containsSub (needle : List Char) : List Char → Bool
  | [] => needle.isEmpty
  | c :: t => needle.isPrefixOf (c :: t) || containsSub needle t

/-- Model of Python `str.lower()` applied to a `String`. -/
def lowerChars (s : String) : List Char := s.data.map Char.toLower

theorem dropWhile_eq_self_of_all {p : Char → Bool} :
    ∀ l : List Char, (∀ c ∈ l, p c = false) → l.dropWhile p = l := by
  intro l h
  cases l with
  | nil => rfl
  | cons c t => simp [List.dropWhile, h c (List.mem_cons_self c t)]

theorem stripChars_of_all_digits {l : List Char}
    (h : ∀ c ∈ l, c.isDigit = true) : stripChars l = l := by
  rw [stripChars, dropWhile_eq_self_of_all l
    (fun c hc => isDigit_not_whitespace (h c hc)),
    dropWhile_eq_self_of_all l.reverse
    (fun c hc => isDigit_not_whitespace (h c (List.mem_reverse.mp hc))),
    List.reverse_reverse]

theorem splitComma_ne_nil : ∀ l : List Char, splitComma l ≠ [] := by
  intro l
  cases l with
  | nil => simp [splitComma]
  | cons c cs =>
    rw [splitComma]
    by_cases h : c = ',' <;> simp [h]

theorem splitComma_no_comma : ∀ {p : List Char}, (∀ c ∈ p, c ≠ ',') →
    splitComma p = [p] := by
  intro p
  induction p with
  | nil => intro _; rfl
  | cons c cs ih =>
    intro h
    rw [splitComma, ih (fun d hd => h d (List.mem_cons_of_mem c hd)),
      if_neg (h c (List.mem_cons_self c cs))]
    rfl

theorem splitComma_append_comma : ∀ {p : List Char} (t : List Char),
    (∀ c ∈ p, c ≠ ',') → splitComma (p ++ ',' :: t) = p :: splitComma t := by
  intro p
  induction p with
  | nil => intro t _; simp [splitComma]
  | cons c cs ih =>
    intro t h
    rw [List.cons_append, splitComma,
      ih t (fun d hd => h d (List.mem_cons_of_mem c hd)),
      if_neg (h c (List.mem_cons_self c cs))]
    rfl

theorem splitComma_joinComma : ∀ {ps : List (List Char)}, ps ≠ [] →
    (∀ p ∈ ps, ∀ c ∈ p, c ≠ ',') → splitComma (joinComma ps) = ps := by
  intro ps
  induction ps with
  | nil => intro h; exact absurd rfl h
  | cons p rest ih =>
    intro _ h
    cases rest with
    | nil =>
      rw [joinComma]
      exact splitComma_no_comma (h p (List.mem_cons_self p []))
    | cons q rest' =>
      rw [joinComma, splitComma_append_comma (joinComma (q :: rest'))
        (h p (List.mem_cons_self p (q :: rest'))),
        ih (by simp) (fun r hr => h r (List.mem_cons_of_mem p hr))]

/-! ### Association list utilities

The in-memory `dict`s of the sources (`ProcessRegistry.processes`,
`GpuDetector._gpu_model_mapping`) are modelled as association lists with
Python assignment/`del`/lookup semantics. -/

/-- Dictionary lookup, `d.get(k)`. -/
def alLookup {κ α : Type} [DecidableEq κ] (k : κ) : List (κ × α) → Option α
  | [] => none
  | (k', v) :: t => if k' = k then some v else alLookup k t

/-- Remove all bindings of a key, `del d[k]`. -/
def alErase {κ α : Type} [DecidableEq κ] (k : κ) : List (κ × α) →
    List (κ × α)
  | [] => []
  | (k', v) :: t => if k' = k then alErase k t else (k', v) :: alErase k t

/-- Dictionary assignment, `d[k] = v`. -/
def alInsert {κ α : Type} [DecidableEq κ] (k : κ) (v : α) (l : List (κ × α)) :
    List (κ × α) :=
  (k, v) :: alErase k l

theorem alLookup_alInsert_self {κ α : Type} [DecidableEq κ]
    (k : κ) (v : α) (l : List (κ × α)) :
    alLookup k (alInsert k v l) = some v := by
  simp [alInsert, alLookup]

theorem alLookup_alErase_ne {κ α : Type} [DecidableEq κ]
    {k k' : κ} (h : k' ≠ k) (l : List (κ × α)) :
    alLookup k (alErase k' l) = alLookup k l := by
  induction l with
  | nil => rfl
  | cons a t ih =>
    cases a with
    | mk x y =>
      rw [alErase]
      by_cases ha : x = k'
      · have hxk : ¬ x = k := fun hh => h (ha ▸ hh)
        rw [if_pos ha, ih, alLookup, if_neg hxk]
      · rw [if_neg ha]
        by_cases hx : x = k
        · rw [alLookup, if_pos hx, alLookup, if_pos hx]
        · rw [alLookup, if_neg hx, ih, alLookup, if_neg hx]

theorem alLookup_alInsert_ne {κ α : Type} [DecidableEq κ]
    {k k' : κ} (h : k' ≠ k) (v : α) (l : List (κ × α)) :
    alLookup k (alInsert k' v l) = alLookup k l := by
  rw [alInsert, alLookup, if_neg h]
  exact alLookup_alErase_ne h l

/-! ### ProcessRegistry (core/process_registry.py)

`ProcessRegistryEntry` and its `to_dict`/`from_dict` serialization, and
the `ProcessRegistry` operations `save`, `register_process`,
`unregister_process`, `verify_process` and `load`, together with the
`__init__` behaviour.  The persisted JSON document is modelled as
`RegistryDoc`; the registry file on disk as `FileContent`, where
`writing` stands for a file whose content is not a complete document
(half-written or otherwise unparseable, so that `json.load` fails). -/

/-- In-memory registry entry (dataclass `ProcessRegistryEntry`). -/
structure ProcessRegistryEntry where
  pid : Nat
  model_id : String
  model_name : String
  model_path : String
  gpu_id : String
  port : Nat
  /-- `datetime` modelled as a counter; see the file header. -/
  started_at : Nat
  command_line : List String
  status : String
deriving DecidableEq, Repr

/-- The JSON-serializable dict produced by `to_dict` and consumed by
`from_dict`.  `started_at` is the isoformat string; `status` is optional
because `from_dict` reads it with `data.get('status', 'unknown')`. -/
structure EntryDict where
  pid : Nat
  model_id : String
  model_name : String
  model_path : String
  gpu_id : String
  port : Nat
  started_at : List Char
  command_line : List String
  status : Option String
deriving DecidableEq, Repr

/-- `ProcessRegistryEntry.to_dict`. -/
def ProcessRegistryEntry.to_dict (e : ProcessRegistryEntry) : EntryDict :=
  { pid := e.pid
    model_id := e.model_id
    model_name := e.model_name
    model_path := e.model_path
    gpu_id := e.gpu_id
    port := e.port
    started_at := natRepr e.started_at
    command_line := e.command_line
    status := some e.status }

/-- `ProcessRegistryEntry.from_dict`; `none` when
`datetime.fromisoformat` raises on the stored string. -/
def ProcessRegistryEntry.from_dict (d : EntryDict) : Option ProcessRegistryEntry :=
  (parseDigits d.started_at).map fun t =>
    { pid := d.pid
      model_id := d.model_id
      model_name := d.model_name
      model_path := d.model_path
      gpu_id := d.gpu_id
      port := d.port
      started_at := t
      command_line := d.command_line
      status := d.status.getD "unknown" }

/-- The persisted document written by `ProcessRegistry.save`. -/
structure RegistryDoc where
  version : String
  last_updated : List Char
  processes : List (String × EntryDict)
deriving DecidableEq, Repr

/-- Content of a path on disk: absent, not a complete document
(half-written or corrupt, `json.load` fails), or a complete document. -/
inductive FileContent where
  | absent
  | writing
  | complete (doc : RegistryDoc)
deriving DecidableEq, Repr

/-- Snapshot of the two paths `save` touches: the registry file and the
temporary file it writes before the rename. -/
structure FsView where
  target : FileContent
  temp : FileContent
deriving DecidableEq, Repr

/-- State of a `ProcessRegistry`: the in-memory dict and the registry
file's content. -/
structure RegState where
  processes : List (String × ProcessRegistryEntry)
  fsTarget : FileContent
deriving DecidableEq, Repr

/-- The document `save` serializes from the in-memory dict
(`version`, `last_updated = datetime.now().isoformat()`, entries via
`to_dict`). -/
def mkDoc (now : Nat) (ps : List (String × ProcessRegistryEntry)) :
    RegistryDoc :=
  { version := "1.0"
    last_updated := natRepr now
    processes := ps.map fun p => (p.1, p.2.to_dict) }

/-- The sequence of filesystem snapshots during `save`: open and write
the temp file, finish the dump, then atomically rename over the target. -/
def saveMicro (t0 : FileContent) (doc : RegistryDoc) : List FsView :=
  [ { target := t0, temp := FileContent.writing },
    { target := t0, temp := FileContent.complete doc },
    { target := FileContent.complete doc, temp := FileContent.absent } ]

/-- `ProcessRegistry.save`: returns the post-state together with the
micro-step trace of filesystem snapshots it goes through. -/
def ProcessRegistry.save (st : RegState) (now : Nat) :
    RegState × List FsView :=
  let doc := mkDoc now st.processes
  ({ st with fsTarget := FileContent.complete doc }, saveMicro st.fsTarget doc)

/-- `ProcessRegistry.register_process`: build the entry with status
`running`, assign it into the dict (overwriting any existing binding)
and save. -/
def ProcessRegistry.register_process (st : RegState) (now : Nat)
    (gpu_id : String) (pid : Nat) (model_id model_name model_path : String)
    (port : Nat) (command_line : List String) : RegState × List FsView :=
  let entry : ProcessRegistryEntry :=
    { pid := pid
      model_id := model_id
      model_name := model_name
      model_path := model_path
      gpu_id := gpu_id
      port := port
      started_at := now
      command_line := command_line
      status := "running" }
  ProcessRegistry.save
    { st with processes := alInsert gpu_id entry st.processes } now

/-- `ProcessRegistry.unregister_process`: pop the entry and save when
present; silent no-op (no save) when absent. -/
def ProcessRegistry.unregister_process (st : RegState) (now : Nat)
    (gpu_id : String) : RegState × List FsView :=
  match alLookup gpu_id st.processes with
  | none => (st, [])
  | some _ =>
    ProcessRegistry.save
      { st with processes := alErase gpu_id st.processes } now

/-- A row of the OS process table as `psutil` reports it. -/
structure OsProc where
  running : Bool
  name : String
deriving DecidableEq, Repr

/-- In-place mutation `entry.status = s` of the entry stored under a
key of the dict. -/
def setStatus (st : RegState) (k : String) (s : String) : RegState :=
  { st with processes := st.processes.map fun p =>
      if p.1 = k then (p.1, { p.2 with status := s }) else p }

/-- The plausibility test of `verify_process`:
`'llama' in process_name or 'server' in process_name` on the lowered
OS-reported name. -/
def nameMatches (name : String) : Bool :=
  containsSub "llama".data (lowerChars name)
    || containsSub "server".data (lowerChars name)

/-- `ProcessRegistry.verify_process`: result, post-state, and the trace
of filesystem snapshots (empty when no save happens).  The OS process
table is `os : pid → Option OsProc`; an absent pid is
`psutil.NoSuchProcess`. -/
def ProcessRegistry.verify_process (st : RegState)
    (os : Nat → Option OsProc) (now : Nat) (gpu_id : String) :
    Bool × RegState × List FsView :=
  match alLookup gpu_id st.processes with
  | none => (false, st, [])
  | some e =>
    match os e.pid with
    | none =>
      let r := ProcessRegistry.save (setStatus st gpu_id "stopped") now
      (false, r.1, r.2)
    | some p =>
      if p.running = false then
        let r := ProcessRegistry.save (setStatus st gpu_id "stopped") now
        (false, r.1, r.2)
      else if nameMatches p.name = false then
        let r := ProcessRegistry.save (setStatus st gpu_id "unknown") now
        (false, r.1, r.2)
      else
        (true, setStatus st gpu_id "running", [])

/-- The status `verify_process` records for a present entry, by branch. -/
def verifyStatus (os : Nat → Option OsProc) (e : ProcessRegistryEntry) :
    String :=
  match os e.pid with
  | none => "stopped"
  | some p =>
    if p.running = false then "stopped"
    else if nameMatches p.name = false then "unknown"
    else "running"

/-- `ProcessRegistry.__init__`: the in-memory dict starts empty; the
constructor does not read the registry file. -/
def ProcessRegistry.init (disk : FileContent) : RegState :=
  { processes := [], fsTarget := disk }

/-- The loop body of `ProcessRegistry.load`: deserialize one entry,
skipping it when `from_dict` raises. -/
def loadStep (acc : List (String × ProcessRegistryEntry))
    (p : String × EntryDict) : List (String × ProcessRegistryEntry) :=
  match ProcessRegistryEntry.from_dict p.2 with
  | some e => alInsert p.1 e acc
  | none => acc

/-- `ProcessRegistry.load`: missing file returns early; a file
`json.load` cannot parse raises, which is caught with the dict
untouched; otherwise the dict is rebuilt from the entries that
deserialize. -/
def ProcessRegistry.load (st : RegState) : RegState :=
  match st.fsTarget with
  | FileContent.absent => st
  | FileContent.writing => st
  | FileContent.complete doc =>
    { st with processes := doc.processes.foldl loadStep [] }

/-! ### ProcessRegistry lemmas -/

theorem save_spec (st : RegState) (now : Nat) :
    (ProcessRegistry.save st now).1.processes = st.processes
    ∧ (ProcessRegistry.save st now).1.fsTarget
        = FileContent.complete (mkDoc now st.processes)
    ∧ ∀ v ∈ (ProcessRegistry.save st now).2,
        v.target = st.fsTarget
        ∨ v.target = FileContent.complete (mkDoc now st.processes) := by
  refine ⟨rfl, rfl, ?_⟩
  intro v hv
  simp only [ProcessRegistry.save, saveMicro, List.mem_cons,
    List.not_mem_nil, or_false] at hv
  rcases hv with h | h | h <;> subst h
  · exact Or.inl rfl
  · exact Or.inl rfl
  · exact Or.inr rfl

theorem alLookup_setStatus (st : RegState) (k s : String)
    (e : ProcessRegistryEntry) (hk : alLookup k st.processes = some e) :
    alLookup k (setStatus st k s).processes = some { e with status := s } := by
  have main : ∀ l : List (String × ProcessRegistryEntry),
      alLookup k l = some e →
      alLookup k (l.map fun p =>
        if p.1 = k then (p.1, { p.2 with status := s }) else p)
        = some { e with status := s } := by
    intro l
    induction l with
    | nil => intro h; cases h
    | cons a t ih =>
      cases a with
      | mk x y =>
        intro h
        rw [alLookup] at h
        by_cases hx : x = k
        · rw [if_pos hx] at h
          injection h with hy
          subst hy
          simp only [List.map_cons, if_pos hx]
          rw [alLookup, if_pos hx]
        · rw [if_neg hx] at h
          simp only [List.map_cons, if_neg hx]
          rw [alLookup, if_neg hx]
          exact ih h
  exact main st.processes hk

theorem setStatus_fsTarget (st : RegState) (k s : String) :
    (setStatus st k s).fsTarget = st.fsTarget := rfl

theorem alLookup_foldl_loadStep_of_not_mem
    {k : String} :
    ∀ (l : List (String × EntryDict))
      (acc : List (String × ProcessRegistryEntry)),
      k ∉ l.map Prod.fst →
      alLookup k (l.foldl loadStep acc) = alLookup k acc := by
  intro l
  induction l with
  | nil => intro acc _; rfl
  | cons p t ih =>
    intro acc hk
    rw [List.map_cons, List.mem_cons] at hk
    push_neg at hk
    rw [List.foldl_cons, ih (loadStep acc p) hk.2]
    rw [loadStep]
    cases hd : ProcessRegistryEntry.from_dict p.2 with
    | none => rfl
    | some e' => exact alLookup_alInsert_ne (fun h => hk.1 h.symm) e' acc

theorem alLookup_foldl_loadStep
    {k : String} {d : EntryDict} {e : ProcessRegistryEntry} :
    ∀ (l : List (String × EntryDict))
      (acc : List (String × ProcessRegistryEntry)),
      (l.map Prod.fst).Nodup → (k, d) ∈ l →
      ProcessRegistryEntry.from_dict d = some e →
      alLookup k (l.foldl loadStep acc) = some e := by
  intro l
  induction l with
  | nil => intro acc _ hm _; cases hm
  | cons p t ih =>
    intro acc hnd hm hok
    rw [List.map_cons, List.nodup_cons] at hnd
    rw [List.foldl_cons]
    rcases List.mem_cons.mp hm with hm | hm
    · have hkp : p.1 = k := by rw [← hm]
      have hnotin : k ∉ t.map Prod.fst := hkp ▸ hnd.1
      rw [alLookup_foldl_loadStep_of_not_mem t (loadStep acc p) hnotin]
      have hpd : p.2 = d := by rw [← hm]
      rw [loadStep, hpd, hok, hkp]
      exact alLookup_alInsert_self k e acc
    · exact ih (loadStep acc p) hnd.2 hm hok

/-! ### Claim C7 -/

/-- C7: registry entry serialization round-trips — deserializing the
serialized dictionary form of any `ProcessRegistryEntry` succeeds and
reproduces the entry (in particular its pid, resource key `gpu_id`,
port, and status are exactly the original's). -/
theorem C7_entry_roundtrip (e : ProcessRegistryEntry) :
    ProcessRegistryEntry.from_dict (ProcessRegistryEntry.to_dict e) = some e := by
  simp [ProcessRegistryEntry.to_dict, ProcessRegistryEntry.from_dict,
    parseDigits_natRepr]

/-- `verify_process` for a present key, expressed through the status it
records: `running` means the true branch (no save), everything else the
corresponding false branch followed by a save. -/
theorem verify_process_cases (st : RegState) (os : Nat → Option OsProc)
    (now : Nat) (k : String) (e : ProcessRegistryEntry)
    (hk : alLookup k st.processes = some e) :
    ProcessRegistry.verify_process st os now k =
      if verifyStatus os e = "running" then
        (true, setStatus st k "running", [])
      else
        (false, (ProcessRegistry.save (setStatus st k (verifyStatus os e)) now).1,
          (ProcessRegistry.save (setStatus st k (verifyStatus os e)) now).2) := by
  rcases hos : os e.pid with _ | p
  · rw [show verifyStatus os e = "stopped" by simp only [verifyStatus, hos],
      if_neg (by decide)]
    simp only [ProcessRegistry.verify_process, hk, hos]
  · by_cases hrun : p.running = false
    · rw [show verifyStatus os e = "stopped" by
        simp only [verifyStatus, hos]; rw [if_pos hrun], if_neg (by decide)]
      simp only [ProcessRegistry.verify_process, hk, hos]
      rw [if_pos hrun]
    · by_cases hnm : nameMatches p.name = false
      · rw [show verifyStatus os e = "unknown" by
          simp only [verifyStatus, hos]; rw [if_neg hrun, if_pos hnm],
          if_neg (by decide)]
        simp only [ProcessRegistry.verify_process, hk, hos]
        rw [if_neg hrun, if_pos hnm]
      · rw [show verifyStatus os e = "running" by
          simp only [verifyStatus, hos]; rw [if_neg hrun, if_neg hnm],
          if_pos rfl]
        simp only [ProcessRegistry.verify_process, hk, hos]
        rw [if_neg hrun, if_neg hnm]

/-! ### Claim C4 -/

/-- Registry entry for the C4 counterexample: status starts as
`unknown`, the recorded process is alive and plausibly named. -/
def c4vEntry : ProcessRegistryEntry :=
  { pid := 33, model_id := "m3", model_name := "Model Three",
    model_path := "/models/three.gguf", gpu_id := "0", port := 8083,
    started_at := 4, command_line := ["llama-server"], status := "unknown" }

/-- Registry state for the C4 counterexample. -/
def c4vSt : RegState :=
  { processes := [("0", c4vEntry)], fsTarget := FileContent.absent }

/-- OS table for the C4 counterexample: pid 33 is alive and named
`llama-server`. -/
def c4vOs : Nat → Option OsProc :=
  fun p => if p = 33 then some { running := true, name := "llama-server" } else none

/-- C4 as stated is false on the code: the status update inside
`verify_process` is one of the mutating operations the claim names, yet
on the true path (process alive and plausibly named,
process_registry.py lines 222-223) the entry's status is mutated in
memory — here from `unknown` to `running` — and the call returns
success with the registry file untouched (still `absent`) and no
filesystem write at all, so no persist completes before the operation
returns. -/
theorem C4_counterexample :
    (ProcessRegistry.verify_process c4vSt c4vOs 6 "0").1 = true
    ∧ alLookup "0"
        (ProcessRegistry.verify_process c4vSt c4vOs 6 "0").2.1.processes
      = some { c4vEntry with status := "running" }
    ∧ (ProcessRegistry.verify_process c4vSt c4vOs 6 "0").2.1.fsTarget
      = FileContent.absent
    ∧ (ProcessRegistry.verify_process c4vSt c4vOs 6 "0").2.2 = [] := by
  refine ⟨?_, ?_, ?_, ?_⟩ <;> decide

/-- C4 amended: `register_process` and (for a present key)
`unregister_process` complete an atomic persist before returning —
after the call the registry file holds the complete document of the new
in-memory dict, and every intermediate filesystem snapshot shows the
registry file either as its old content or as the new complete document
(the half-written temp file is a different path), so a half-written
registry file is never observable; `register_process` additionally
overwrites any existing entry for the key.  `verify_process`'s status
update persists the same way whenever verification returns false, but
on the true path the update is memory-only: the registry file is left
exactly as it was and no write occurs. -/
theorem C4_mutations_persist_atomically
    (st : RegState) (now : Nat) (k : String) (pid : Nat)
    (mid mname mpath : String) (port : Nat) (cl : List String)
    (os : Nat → Option OsProc) (e : ProcessRegistryEntry)
    (hk : alLookup k st.processes = some e) :
    alLookup k
      (ProcessRegistry.register_process st now k pid mid mname mpath port cl).1.processes
      = some { pid := pid, model_id := mid, model_name := mname,
               model_path := mpath, gpu_id := k, port := port,
               started_at := now, command_line := cl, status := "running" }
    ∧ (ProcessRegistry.register_process st now k pid mid mname mpath port cl).1.fsTarget
      = FileContent.complete (mkDoc now
          (ProcessRegistry.register_process st now k pid mid mname mpath port cl).1.processes)
    ∧ (∀ v ∈ (ProcessRegistry.register_process st now k pid mid mname mpath port cl).2,
        v.target = st.fsTarget
        ∨ v.target = (ProcessRegistry.register_process st now k pid mid mname mpath port cl).1.fsTarget)
    ∧ (ProcessRegistry.unregister_process st now k).1.fsTarget
      = FileContent.complete (mkDoc now
          (ProcessRegistry.unregister_process st now k).1.processes)
    ∧ (∀ v ∈ (ProcessRegistry.unregister_process st now k).2,
        v.target = st.fsTarget
        ∨ v.target = (ProcessRegistry.unregister_process st now k).1.fsTarget)
    ∧ ((ProcessRegistry.verify_process st os now k).1 = false →
        (ProcessRegistry.verify_process st os now k).2.1.fsTarget
          = FileContent.complete (mkDoc now
              (ProcessRegistry.verify_process st os now k).2.1.processes)
        ∧ (∀ v ∈ (ProcessRegistry.verify_process st os now k).2.2,
            v.target = st.fsTarget
            ∨ v.target = (ProcessRegistry.verify_process st os now k).2.1.fsTarget))
    ∧ ((ProcessRegistry.verify_process st os now k).1 = true →
        (ProcessRegistry.verify_process st os now k).2.1.fsTarget = st.fsTarget
        ∧ (ProcessRegistry.verify_process st os now k).2.2 = []) := by
  refine ⟨alLookup_alInsert_self _ _ _, rfl, ?_, ?_, ?_, ?_, ?_⟩
  · intro v hv
    simp only [ProcessRegistry.register_process, ProcessRegistry.save,
      saveMicro, List.mem_cons, List.not_mem_nil, or_false] at hv
    rcases hv with h | h | h <;> subst h
    · exact Or.inl rfl
    · exact Or.inl rfl
    · exact Or.inr rfl
  · simp only [ProcessRegistry.unregister_process, hk]
    rfl
  · intro v hv
    simp only [ProcessRegistry.unregister_process, hk, ProcessRegistry.save,
      saveMicro, List.mem_cons, List.not_mem_nil, or_false] at hv ⊢
    rcases hv with h | h | h <;> subst h
    · exact Or.inl rfl
    · exact Or.inl rfl
    · exact Or.inr rfl
  · intro hfalse
    rw [verify_process_cases st os now k e hk] at hfalse ⊢
    by_cases hs : verifyStatus os e = "running"
    · rw [if_pos hs] at hfalse
      exact Bool.noConfusion hfalse
    · rw [if_neg hs]
      refine ⟨rfl, ?_⟩
      intro v hv
      simp only [ProcessRegistry.save, saveMicro, List.mem_cons,
        List.not_mem_nil, or_false] at hv
      rcases hv with h | h | h <;> subst h
      · exact Or.inl rfl
      · exact Or.inl rfl
      · exact Or.inr rfl
  · intro htrue
    rw [verify_process_cases st os now k e hk] at htrue ⊢
    by_cases hs : verifyStatus os e = "running"
    · rw [if_pos hs]
      exact ⟨rfl, rfl⟩
    · rw [if_neg hs] at htrue
      exact Bool.noConfusion htrue

/-- Concrete registry entry for the C4 witness. -/
def c4entry : ProcessRegistryEntry :=
  { pid := 17, model_id := "m1", model_name := "Model One",
    model_path := "/models/one.gguf", gpu_id := "0", port := 8081,
    started_at := 3, command_line := ["llama-server"], status := "running" }

/-- Registry state for the C4 witness: key `0` is bound. -/
def c4st : RegState := { processes := [("0", c4entry)], fsTarget := FileContent.absent }

/-- OS table for the C4 witness: every pid is gone. -/
def c4os : Nat → Option OsProc := fun _ => none

/-- The entry the C4 witness registers over the existing binding. -/
def c4newEntry : ProcessRegistryEntry :=
  { pid := 44, model_id := "m2", model_name := "Model Two",
    model_path := "/models/two.gguf", gpu_id := "0", port := 8082,
    started_at := 5, command_line := [], status := "running" }

/-- Witness instantiating the amended C4 at concrete registry states:
a bound key with the recorded pid gone (register, unregister, and
verify's persisted false case) and a bound key whose process is alive
(verify's memory-only true case). -/
theorem C4_mutations_persist_atomically_witness :
    alLookup "0"
      (ProcessRegistry.register_process c4st 5 "0" 44 "m2" "Model Two" "/models/two.gguf" 8082 []).1.processes
      = some c4newEntry
    ∧ (ProcessRegistry.unregister_process c4st 5 "0").1.fsTarget
      = FileContent.complete (mkDoc 5
          (ProcessRegistry.unregister_process c4st 5 "0").1.processes)
    ∧ (ProcessRegistry.verify_process c4st c4os 5 "0").2.1.fsTarget
      = FileContent.complete (mkDoc 5
          (ProcessRegistry.verify_process c4st c4os 5 "0").2.1.processes)
    ∧ (ProcessRegistry.verify_process c4vSt c4vOs 6 "0").2.1.fsTarget
      = c4vSt.fsTarget := by
  have h := C4_mutations_persist_atomically c4st 5 "0" 44 "m2" "Model Two"
    "/models/two.gguf" 8082 [] c4os c4entry (by decide)
  have h' := C4_mutations_persist_atomically c4vSt 6 "0" 44 "m2" "Model Two"
    "/models/two.gguf" 8082 [] c4vOs c4vEntry (by decide)
  exact ⟨h.1, h.2.2.2.1, (h.2.2.2.2.2.1 (by decide)).1,
    (h'.2.2.2.2.2.2 (by decide)).1⟩

/-! ### Claim C8 -/

/-- Registry entry for the C8 counterexample. -/
def c8aEntry : ProcessRegistryEntry :=
  { pid := 17, model_id := "m1", model_name := "Model One",
    model_path := "/models/one.gguf", gpu_id := "0", port := 8081,
    started_at := 3, command_line := ["llama-server"], status := "unknown" }

/-- Registry state for the C8 counterexample. -/
def c8aSt : RegState :=
  { processes := [("0", c8aEntry)], fsTarget := FileContent.absent }

/-- OS table for the C8 counterexample: pid 17 is alive and named
`llama-server`. -/
def c8aOs : Nat → Option OsProc :=
  fun p => if p = 17 then some { running := true, name := "llama-server" } else none

/-- C8 as stated is false on the code: in the true case (process alive
and plausibly named) `verify_process` updates the entry's status in
memory but does not persist — here the registry file stays `absent` and
no filesystem write happens even though verification returned true. -/
theorem C8_counterexample :
    (ProcessRegistry.verify_process c8aSt c8aOs 5 "0").1 = true
    ∧ (ProcessRegistry.verify_process c8aSt c8aOs 5 "0").2.1.fsTarget
        = FileContent.absent
    ∧ (ProcessRegistry.verify_process c8aSt c8aOs 5 "0").2.2 = [] := by
  refine ⟨?_, ?_, ?_⟩ <;> decide

/-- C8 amended: for every registered key, `verify_process` returns true
exactly when the recorded pid's process exists, is running, and its
lowered OS-reported name contains `llama` or `server`; it always
updates the entry's status field in memory, but persists the registry
only in the false cases — in the true case the registry file is left
untouched and no write occurs. -/
theorem C8_verify_reports_and_updates
    (st : RegState) (os : Nat → Option OsProc) (now : Nat) (k : String)
    (e : ProcessRegistryEntry) (hk : alLookup k st.processes = some e) :
    ((ProcessRegistry.verify_process st os now k).1 = true
        ↔ verifyStatus os e = "running")
    ∧ alLookup k (ProcessRegistry.verify_process st os now k).2.1.processes
        = some { e with status := verifyStatus os e }
    ∧ ((ProcessRegistry.verify_process st os now k).1 = false →
        (ProcessRegistry.verify_process st os now k).2.1.fsTarget
          = FileContent.complete (mkDoc now
              (ProcessRegistry.verify_process st os now k).2.1.processes))
    ∧ ((ProcessRegistry.verify_process st os now k).1 = true →
        (ProcessRegistry.verify_process st os now k).2.1.fsTarget = st.fsTarget
        ∧ (ProcessRegistry.verify_process st os now k).2.2 = []) := by
  rw [verify_process_cases st os now k e hk]
  by_cases hs : verifyStatus os e = "running"
  · rw [if_pos hs]
    refine ⟨by simp [hs], ?_, ?_, ?_⟩
    · rw [hs]
      exact alLookup_setStatus st k "running" e hk
    · intro h; cases h
    · intro _; exact ⟨rfl, rfl⟩
  · rw [if_neg hs]
    refine ⟨by simp [hs], ?_, ?_, ?_⟩
    · exact alLookup_setStatus st k (verifyStatus os e) e hk
    · intro _; rfl
    · intro h; cases h

/-- Registry entry for the C8 witness. -/
def c8bEntry : ProcessRegistryEntry :=
  { pid := 22, model_id := "m2", model_name := "Model Two",
    model_path := "/models/two.gguf", gpu_id := "1", port := 8082,
    started_at := 7, command_line := [], status := "running" }

/-- Concrete state for the C8 witness: the recorded process is dead. -/
def c8bSt : RegState :=
  { processes := [("1", c8bEntry)], fsTarget := FileContent.absent }

/-- Witness instantiating the amended C8 where the process is gone:
verification returns false, status becomes `stopped`, and the update is
persisted. -/
theorem C8_verify_reports_and_updates_witness :
    ((ProcessRegistry.verify_process c8bSt (fun _ => none) 9 "1").1 = false →
      (ProcessRegistry.verify_process c8bSt (fun _ => none) 9 "1").2.1.fsTarget
        = FileContent.complete (mkDoc 9
            (ProcessRegistry.verify_process c8bSt (fun _ => none) 9 "1").2.1.processes))
    ∧ alLookup "1" (ProcessRegistry.verify_process c8bSt (fun _ => none) 9 "1").2.1.processes
        = some { c8bEntry with status := "stopped" } := by
  have h := C8_verify_reports_and_updates c8bSt (fun _ => none) 9 "1"
    c8bEntry (by decide)
  refine ⟨h.2.2.1, ?_⟩
  have h2 := h.2.1
  rwa [show verifyStatus (fun _ => none) c8bEntry = "stopped" from rfl] at h2

/-! ### Claim C9 -/

/-- Entry dict used by the C9 counterexample and witness:
deserializes fine. -/
def c9dict : EntryDict :=
  { pid := 22, model_id := "m2", model_name := "Model Two",
    model_path := "/models/two.gguf", gpu_id := "1", port := 8082,
    started_at := ['7'], command_line := [], status := some "running" }

/-- The entry `c9dict` deserializes to. -/
def c9entry : ProcessRegistryEntry :=
  { pid := 22, model_id := "m2", model_name := "Model Two",
    model_path := "/models/two.gguf", gpu_id := "1", port := 8082,
    started_at := 7, command_line := [], status := "running" }

/-- A persisted document holding just the good entry. -/
def c9docGood : RegistryDoc :=
  { version := "1.0", last_updated := ['9'], processes := [("1", c9dict)] }

/-- C9 as stated is false on the code: `ProcessRegistry.__init__` never
reads the persisted file.  Here the file is present, complete, and its
single entry deserializes, yet right after construction the in-memory
registry is empty — the entry is only picked up by an explicit
`load()` call. -/
theorem C9_counterexample :
    ProcessRegistryEntry.from_dict c9dict = some c9entry
    ∧ (ProcessRegistry.init (FileContent.complete c9docGood)).processes = [] := by
  exact ⟨by decide, rfl⟩

/-- C9 amended: construction initializes an empty in-memory registry
without reading the file; the separate `load()` treats a missing file
as a no-op and a file `json.load` cannot parse as caught-and-ignored
(registry unchanged, no fatal error), and when the document parses,
every entry that deserializes is loaded even when other entries fail to
deserialize. -/
theorem C9_load_resilient
    (st : RegState) (doc : RegistryDoc) (k : String) (d : EntryDict)
    (e : ProcessRegistryEntry)
    (hnodup : (doc.processes.map Prod.fst).Nodup)
    (hmem : (k, d) ∈ doc.processes)
    (hok : ProcessRegistryEntry.from_dict d = some e) :
    ProcessRegistry.load { st with fsTarget := FileContent.absent }
      = { st with fsTarget := FileContent.absent }
    ∧ ProcessRegistry.load { st with fsTarget := FileContent.writing }
      = { st with fsTarget := FileContent.writing }
    ∧ (ProcessRegistry.init (FileContent.complete doc)).processes = []
    ∧ alLookup k (ProcessRegistry.load
        { st with fsTarget := FileContent.complete doc }).processes = some e := by
  refine ⟨rfl, rfl, rfl, ?_⟩
  exact alLookup_foldl_loadStep doc.processes [] hnodup hmem hok

/-- A corrupt entry dict: `started_at` does not parse. -/
def c9badDict : EntryDict :=
  { pid := 11, model_id := "bad", model_name := "Bad",
    model_path := "/models/bad.gguf", gpu_id := "0", port := 8080,
    started_at := ['x'], command_line := [], status := some "running" }

/-- Document for the C9 witness: one corrupt entry (unparseable
`started_at`), one good entry. -/
def c9doc : RegistryDoc :=
  { version := "1.0", last_updated := ['9'],
    processes := [("0", c9badDict), ("1", c9dict)] }

/-- Witness instantiating the amended C9 on a document whose first
entry is corrupt: the second entry still loads. -/
theorem C9_load_resilient_witness :
    alLookup "1" (ProcessRegistry.load
      { processes := [], fsTarget := FileContent.complete c9doc }).processes
      = some c9entry := by
  have h := C9_load_resilient
    { processes := [], fsTarget := FileContent.absent } c9doc "1" c9dict
    c9entry (by decide) (by decide) (by decide)
  exact h.2.2.2

/-! ### GpuDetector (core/gpu_detector.py)

The nvidia-smi output parsers (`parse_gpu_info`,
`parse_gpu_processes`), the per-device classification of
`detect_gpus`, and the CPU fallback.  The regular expressions of the
source are rendered as explicit recognizers over `List Char` with the
same leftmost/greedy/lazy semantics. -/

/-- Modelled from the spec: the occupancy state enum `GpuState`
(`models/gpu.py` is not among the sources; the three values are the
ones `gpu_detector.py` uses). -/
inductive GpuState where
  | idle
  | model_loaded
  | occupied_by_others
deriving DecidableEq, Repr

/-- Dataclass `GpuProcessInfo`. -/
structure GpuProcessInfo where
  gpu_index : Nat
  pid : Nat
  process_name : String
  used_memory : Nat
deriving DecidableEq, Repr

/-- Dataclass `GpuInfo`. -/
structure GpuInfo where
  index : Nat
  memory_used : Nat
  memory_total : Nat
deriving DecidableEq, Repr

/-- Dataclass `GpuStatus`; `index` is an `Int` so the `-1` CPU
sentinel is representable. -/
structure GpuStatus where
  index : Int
  state : GpuState
  model_name : Option String
  process_info : Option (List GpuProcessInfo)
  select_enabled : Bool
  memory_used : Nat
  memory_total : Nat
deriving DecidableEq, Repr

/-- Key of `_gpu_model_mapping`, which Python types as
`Union[int, str]`. -/
inductive GpuKey where
  | idx (n : Nat)
  | str (s : String)
deriving DecidableEq, Repr

/-- `GpuDetector.set_model_mapping`. -/
def set_model_mapping (m : List (GpuKey × String)) (k : GpuKey)
    (name : String) : List (GpuKey × String) :=
  alInsert k name m

/-- `GpuDetector.remove_model_mapping` (also `clear_model_mapping`). -/
def remove_model_mapping (m : List (GpuKey × String)) (k : GpuKey) :
    List (GpuKey × String) :=
  alErase k m

/-- `GpuDetector.get_model_for_gpu`. -/
def get_model_for_gpu (m : List (GpuKey × String)) (k : GpuKey) :
    Option String :=
  alLookup k m

/-- Python truthiness of an `Optional[str]`: `None` and the empty
string are falsy. -/
def pyTruthy : Option String → Bool
  | none => false
  | some s => !s.isEmpty

/-- Model of Python `s.split('\n')`. -/
def splitNl : List Char → List (List Char)
  | [] => [[]]
  | c :: cs =>
    let r := splitNl cs
    if c = '\n' then [] :: r
    else (c :: r.headD []) :: r.tail

/-- `TCC|WDDM` anchored at the head. -/
def gpuTagAt (l : List Char) : Bool :=
  "TCC".data.isPrefixOf l || "WDDM".data.isPrefixOf l

/-- Scan for a whitespace character immediately followed by the
`TCC|WDDM` literal (any position). -/
def wsTagScan : List Char → Bool
  | [] => false
  | c :: t => (c.isWhitespace && gpuTagAt t) || wsTagScan t

/-- Recognizer for `re.match(r'\|\s+(\d+)\s+(.+?)\s+(TCC|WDDM)', line)`,
returning capture group 1.  After the forced prefix `| \s+ \d+ ` the
rest matches `\s+(.+?)\s+(TCC|WDDM)` iff the remainder starts with
whitespace and the tag occurs at a position `p ≥ 3` preceded by a
whitespace character (the lazy middle group can absorb anything,
whitespace included). -/
def gpuLineMatch (l : List Char) : Option Nat :=
  match l with
  | '|' :: rest =>
    if (rest.takeWhile Char.isWhitespace).isEmpty then none
    else
      let r1 := rest.dropWhile Char.isWhitespace
      let ds := r1.takeWhile Char.isDigit
      if ds.isEmpty then none
      else
        match r1.dropWhile Char.isDigit with
        | [] => none
        | c :: t =>
          if c.isWhitespace && wsTagScan (t.drop 1) then
            some (digitsToNatAux 0 ds)
          else none
  | _ => none

/-- Recognizer for `(\d+)MiB\s*/\s*(\d+)MiB` anchored at the head. -/
def memMatchAt (l : List Char) : Option (Nat × Nat) :=
  let ds := l.takeWhile Char.isDigit
  if ds.isEmpty then none
  else
    let r := l.dropWhile Char.isDigit
    if "MiB".data.isPrefixOf r then
      match (r.drop 3).dropWhile Char.isWhitespace with
      | '/' :: r3 =>
        let r4 := r3.dropWhile Char.isWhitespace
        let ds2 := r4.takeWhile Char.isDigit
        if ds2.isEmpty then none
        else if "MiB".data.isPrefixOf (r4.dropWhile Char.isDigit) then
          some (digitsToNatAux 0 ds, digitsToNatAux 0 ds2)
        else none
      | _ => none
    else none

/-- `re.search` for the memory pattern: leftmost match. -/
def memSearch : List Char → Option (Nat × Nat)
  | [] => none
  | c :: t =>
    match memMatchAt (c :: t) with
    | some r => some r
    | none => memSearch t

/-- The `for` loop of `parse_gpu_info`: remembers the index of the last
seen GPU header line until a memory line consumes it. -/
def parseGpuInfoGo : List (List Char) → Option Nat → List GpuInfo →
    List GpuInfo
  | [], _, acc => acc
  | line :: rest, current, acc =>
    let current1 := match gpuLineMatch line with
      | some idx => some idx
      | none => current
    match current1 with
    | some g =>
      match memSearch line with
      | some (u, t) =>
        parseGpuInfoGo rest none
          (acc ++ [{ index := g, memory_used := u, memory_total := t }])
      | none => parseGpuInfoGo rest (some g) acc
    | none => parseGpuInfoGo rest none acc

/-- `GpuDetector.parse_gpu_info`. -/
def parse_gpu_info (out : String) : List GpuInfo :=
  parseGpuInfoGo (splitNl out.data) none []

/-- `\s+(\d+)MiB` anchored at the head (tail of the process pattern). -/
def wsNumMiB (l : List Char) : Option Nat :=
  match l with
  | [] => none
  | c :: _ =>
    if c.isWhitespace then
      let r := l.dropWhile Char.isWhitespace
      let ds := r.takeWhile Char.isDigit
      if ds.isEmpty then none
      else if "MiB".data.isPrefixOf (r.dropWhile Char.isDigit) then
        some (digitsToNatAux 0 ds)
      else none
    else none

/-- Lazy `(.+?)` scan: grow the middle group one character at a time
until the tail pattern matches what follows. -/
def lazyScan (pre : List Char) : List Char → Option (List Char × Nat)
  | [] => none
  | c :: rest =>
    if pre.isEmpty then lazyScan [c] rest
    else
      match wsNumMiB (c :: rest) with
      | some mem => some (pre, mem)
      | none => lazyScan (pre ++ [c]) rest

/-- Backtracking over how much of the whitespace block the `\s+` before
the lazy group keeps: the regex engine tries the greedy (longest)
whitespace run first, handing leftover whitespace to the middle group. -/
def procMidLoop (wsB : List Char) (r : List Char) :
    Nat → Option (List Char × Nat)
  | 0 => none
  | Nat.succ a =>
    match lazyScan (wsB.drop (Nat.succ a)) r with
    | some res => some res
    | none => procMidLoop wsB r a

/-- `[\-\d]` character class. -/
def isDashDigit (c : Char) : Bool := c = '-' || c.isDigit

/-- `\w` character class (ASCII). -/
def isWordChar (c : Char) : Bool := c.isAlphanum || c = '_'

/-- Take a nonempty maximal run satisfying `p` (one `\s+`/`\d+`/`\w+`
token of the pattern, each of which is forced to its maximal run by the
character class that must follow it). -/
def tok (p : Char → Bool) (l : List Char) :
    Option (List Char × List Char) :=
  let t := l.takeWhile p
  if t.isEmpty then none else some (t, l.dropWhile p)

/-- Recognizer for
`re.match(r'\|\s+(\d+)\s+[\-\d]+\s+[\-\d]+\s+(\d+)\s+\w+\s+(.+?)\s+(\d+)MiB', line)`
building the `GpuProcessInfo` of groups 1, 2, 3 (stripped) and 4. -/
def procLineMatch (l : List Char) : Option GpuProcessInfo :=
  match l with
  | '|' :: rest =>
    match tok Char.isWhitespace rest with
    | none => none
    | some (_, r1) =>
      match tok Char.isDigit r1 with
      | none => none
      | some (ds1, r2) =>
        match tok Char.isWhitespace r2 with
        | none => none
        | some (_, r3) =>
          match tok isDashDigit r3 with
          | none => none
          | some (_, r4) =>
            match tok Char.isWhitespace r4 with
            | none => none
            | some (_, r5) =>
              match tok isDashDigit r5 with
              | none => none
              | some (_, r6) =>
                match tok Char.isWhitespace r6 with
                | none => none
                | some (_, r7) =>
                  match tok Char.isDigit r7 with
                  | none => none
                  | some (ds2, r8) =>
                    match tok Char.isWhitespace r8 with
                    | none => none
                    | some (_, r9) =>
                      match tok isWordChar r9 with
                      | none => none
                      | some (_, r10) =>
                        match tok Char.isWhitespace r10 with
                        | none => none
                        | some (wsB, r11) =>
                          match procMidLoop wsB r11 wsB.length with
                          | none => none
                          | some (mid, mem) =>
                            some { gpu_index := digitsToNatAux 0 ds1
                                   pid := digitsToNatAux 0 ds2
                                   process_name := String.mk (stripChars mid)
                                   used_memory := mem }
  | _ => none

/-- The `for` loop of `parse_gpu_processes`: a line containing
`Processes:` turns the section flag on and is skipped; before the flag
is on every line is skipped; afterwards matching lines are collected. -/
def parseProcGo : List (List Char) → Bool → List GpuProcessInfo →
    List GpuProcessInfo
  | [], _, acc => acc
  | line :: rest, inSection, acc =>
    if containsSub "Processes:".data line then parseProcGo rest true acc
    else if inSection = false then parseProcGo rest false acc
    else
      match procLineMatch line with
      | some p => parseProcGo rest true (acc ++ [p])
      | none => parseProcGo rest true acc

/-- `GpuDetector.parse_gpu_processes`. -/
def parse_gpu_processes (out : String) : List GpuProcessInfo :=
  parseProcGo (splitNl out.data) false []

/-- The per-device classification in the loop body of `detect_gpus`:
above threshold with a truthy annotation → model loaded; above
threshold otherwise → occupied by others (with the attributed process
list when nonempty) and not selectable; at or below threshold → idle
and selectable, the (possibly stale) annotation only reported as the
name. -/
def classifyGpu (threshold : Nat) (mapping : List (GpuKey × String))
    (procs : List GpuProcessInfo) (gpu : GpuInfo) : GpuStatus :=
  if gpu.memory_used > threshold then
    let model_name := get_model_for_gpu mapping (GpuKey.idx gpu.index)
    if pyTruthy model_name = true then
      { index := (gpu.index : Int), state := GpuState.model_loaded,
        model_name := model_name, process_info := none,
        select_enabled := true, memory_used := gpu.memory_used,
        memory_total := gpu.memory_total }
    else
      let gpu_processes := procs.filter fun p => p.gpu_index == gpu.index
      { index := (gpu.index : Int), state := GpuState.occupied_by_others,
        model_name := some "Occupied by someone else",
        process_info := if gpu_processes.isEmpty then none else some gpu_processes,
        select_enabled := false, memory_used := gpu.memory_used,
        memory_total := gpu.memory_total }
  else
    { index := (gpu.index : Int), state := GpuState.idle,
      model_name := get_model_for_gpu mapping (GpuKey.idx gpu.index),
      process_info := none, select_enabled := true,
      memory_used := gpu.memory_used, memory_total := gpu.memory_total }

/-- `GpuDetector._get_cpu_fallback`. -/
def get_cpu_fallback : List GpuStatus :=
  [ { index := -1, state := GpuState.idle, model_name := none,
      process_info := none, select_enabled := true,
      memory_used := 0, memory_total := 0 } ]

/-- The ways `_run_nvidia_smi` raises `RuntimeError`. -/
inductive ToolFailure where
  | notInstalled
  | timedOut
  | nonZeroExit
deriving DecidableEq, Repr

/-- `GpuDetector.detect_gpus`: tool failure or a parse yielding no
devices falls back to the CPU sentinel; otherwise each parsed device is
classified.  Total — no exception propagates. -/
def detect_gpus (threshold : Nat) (mapping : List (GpuKey × String))
    (tool : Except ToolFailure String) : List GpuStatus :=
  match tool with
  | Except.error _ => get_cpu_fallback
  | Except.ok out =>
    let gpu_info_list := parse_gpu_info out
    let process_info_list := parse_gpu_processes out
    if gpu_info_list.isEmpty then get_cpu_fallback
    else gpu_info_list.map (classifyGpu threshold mapping process_info_list)

/-! ### Claim C3 -/

/-- C3 as stated is false on the code: classification tests the
annotation with Python truthiness (`if model_name:`), so a recorded
empty-string annotation is treated as no annotation — used memory above
threshold with annotation `""` recorded for index 0 classifies as
`occupied_by_others`, not `model_loaded`. -/
theorem C3_counterexample :
    get_model_for_gpu [(GpuKey.idx 0, "")] (GpuKey.idx 0) = some ""
    ∧ (classifyGpu 30 [(GpuKey.idx 0, "")] []
        { index := 0, memory_used := 100, memory_total := 1000 }).state
      = GpuState.occupied_by_others
    ∧ (classifyGpu 30 [(GpuKey.idx 0, "")] []
        { index := 0, memory_used := 100, memory_total := 1000 }).state
      ≠ GpuState.model_loaded := by
  refine ⟨?_, ?_, ?_⟩ <;> decide

/-- C3 amended: for every detected device, used memory strictly above
the threshold with a non-empty recorded annotation for its index gives
`model_loaded`; above the threshold with no truthy annotation (none or
the empty string) gives `occupied_by_other` with `select_enabled`
false; at or below the threshold gives `idle` with `select_enabled`
true irrespective of any stale annotation.  `detect_gpus` applies this
classification to every parsed device. -/
theorem C3_classification_policy
    (threshold : Nat) (mapping : List (GpuKey × String))
    (procs : List GpuProcessInfo) (gpu : GpuInfo) (out : String) :
    (gpu.memory_used > threshold →
      ∀ s, get_model_for_gpu mapping (GpuKey.idx gpu.index) = some s →
        s ≠ "" →
        (classifyGpu threshold mapping procs gpu).state
          = GpuState.model_loaded)
    ∧ (gpu.memory_used > threshold →
        pyTruthy (get_model_for_gpu mapping (GpuKey.idx gpu.index)) = false →
        (classifyGpu threshold mapping procs gpu).state
          = GpuState.occupied_by_others
        ∧ (classifyGpu threshold mapping procs gpu).select_enabled = false)
    ∧ (gpu.memory_used ≤ threshold →
        (classifyGpu threshold mapping procs gpu).state = GpuState.idle
        ∧ (classifyGpu threshold mapping procs gpu).select_enabled = true)
    ∧ (parse_gpu_info out ≠ [] →
        detect_gpus threshold mapping (Except.ok out)
          = (parse_gpu_info out).map
              (classifyGpu threshold mapping (parse_gpu_processes out))) := by
  refine ⟨?_, ?_, ?_, ?_⟩
  · intro h1 s hs hne
    have hie : s.isEmpty = false := by
      by_contra hc
      rw [Bool.not_eq_false, String.isEmpty_iff] at hc
      exact hne hc
    have htr : pyTruthy (get_model_for_gpu mapping (GpuKey.idx gpu.index))
        = true := by
      rw [hs]
      simp [pyTruthy, hie]
    simp only [classifyGpu]
    rw [if_pos h1, if_pos htr]
  · intro h1 hfalse
    simp only [classifyGpu]
    rw [if_pos h1, if_neg (by rw [hfalse]; exact Bool.false_ne_true)]
    exact ⟨rfl, rfl⟩
  · intro h1
    simp only [classifyGpu]
    rw [if_neg (Nat.not_lt.mpr h1)]
    exact ⟨rfl, rfl⟩
  · intro h
    cases hl : parse_gpu_info out with
    | nil => exact absurd hl h
    | cons a t =>
      simp only [detect_gpus, hl, List.isEmpty_cons]
      rw [if_neg (by exact Bool.false_ne_true)]

/-- Witness instantiating the amended C3 on all three branches. -/
theorem C3_classification_policy_witness :
    (classifyGpu 30 [(GpuKey.idx 0, "phi")] []
      { index := 0, memory_used := 100, memory_total := 1000 }).state
      = GpuState.model_loaded
    ∧ (classifyGpu 30 [] []
        { index := 1, memory_used := 100, memory_total := 1000 }).state
      = GpuState.occupied_by_others
    ∧ (classifyGpu 30 [] []
        { index := 1, memory_used := 100, memory_total := 1000 }).select_enabled
      = false
    ∧ (classifyGpu 30 [(GpuKey.idx 2, "stale")] []
        { index := 2, memory_used := 10, memory_total := 1000 }).state
      = GpuState.idle
    ∧ (classifyGpu 30 [(GpuKey.idx 2, "stale")] []
        { index := 2, memory_used := 10, memory_total := 1000 }).select_enabled
      = true := by
  have h1 := (C3_classification_policy 30 [(GpuKey.idx 0, "phi")] []
    { index := 0, memory_used := 100, memory_total := 1000 } "").1
    (by decide) "phi" (by decide) (by decide)
  have h2 := (C3_classification_policy 30 [] []
    { index := 1, memory_used := 100, memory_total := 1000 } "").2.1
    (by decide) (by decide)
  have h3 := (C3_classification_policy 30 [(GpuKey.idx 2, "stale")] []
    { index := 2, memory_used := 10, memory_total := 1000 } "").2.2.1
    (by decide)
  exact ⟨h1, h2.1, h2.2, h3.1, h3.2⟩

/-! ### Claim C6 -/

/-- C6: on every vendor-tool failure (not installed, timeout, non-zero
exit) and on every tool output whose parse yields zero devices,
`detect_gpus` returns exactly the one synthetic CPU-fallback entry with
sentinel index `-1`, state `idle` and `select_enabled` true; the
function is total, so no exception propagates. -/
theorem C6_detect_degrades_gracefully
    (threshold : Nat) (mapping : List (GpuKey × String))
    (f : ToolFailure) (out : String) (h : parse_gpu_info out = []) :
    detect_gpus threshold mapping (Except.error f) = get_cpu_fallback
    ∧ detect_gpus threshold mapping (Except.ok out) = get_cpu_fallback
    ∧ get_cpu_fallback
      = [ { index := -1, state := GpuState.idle, model_name := none,
            process_info := none, select_enabled := true,
            memory_used := 0, memory_total := 0 } ] := by
  refine ⟨rfl, ?_, rfl⟩
  simp [detect_gpus, h]

/-- Witness instantiating C6 with a missing tool and with the empty
output, whose parse yields no devices. -/
theorem C6_detect_degrades_gracefully_witness :
    detect_gpus 30 [] (Except.error ToolFailure.notInstalled)
      = get_cpu_fallback
    ∧ detect_gpus 30 [] (Except.ok "") = get_cpu_fallback := by
  have h := C6_detect_degrades_gracefully 30 [] ToolFailure.notInstalled ""
    (by decide)
  exact ⟨h.1, h.2.1⟩

/-! ### ModelLifecycleManager (core/lifecycle.py)

`load_model`, `unload_model` and `_wait_for_ready`.  The manager holds
`current_model`/`load_time` and owns one adapter; the adapter itself
(`core/adapter.py`) is not among the sources, so its observable
behaviour is abstracted into `AdapterBehavior`. -/

/-- Modelled from the spec: the `LlamaCppAdapter` (`core/adapter.py` is
not among the sources).  Only its behaviour as observed by the
lifecycle manager is modelled: does `start_server` spawn successfully,
what does `is_healthy` answer at each one-second poll tick, and does
`stop_server(graceful=True, timeout=30)` end with the process stopped
(per the spec, `stop` returns whether the process ended up stopped). -/
structure AdapterBehavior where
  startOk : Bool
  health : Nat → Bool
  stopOk : Bool

/-- The slice of `ModelConfig` the lifecycle manager reads. -/
structure ModelConfig where
  id : String
  name : String
  path : String
deriving DecidableEq, Repr

/-- The model catalog: `config_manager.models`. -/
structure ModelsConfig where
  models : List ModelConfig
deriving DecidableEq, Repr

/-- `models.get_model(model_id)`. -/
def ModelsConfig.get_model (c : ModelsConfig) (model_id : String) :
    Option ModelConfig :=
  c.models.find? fun m => m.id == model_id

/-- Mutable state of a `ModelLifecycleManager`: `current_model`,
`load_time`, and whether its adapter's subprocess is up. -/
structure LifecycleState where
  current_model : Option ModelConfig
  load_time : Option Nat
  adapterRunning : Bool
deriving DecidableEq, Repr

/-- The distinct `LifecycleError`s raised by `load_model` and
`unload_model`, distinguished by their message text. -/
inductive LifecycleErrorKind where
  | notFound
  | alreadyLoaded
  | startFailed
  | startupTimeout
  | stopFailed
deriving DecidableEq, Repr

/-- `ModelLifecycleManager._wait_for_ready`: polls `is_healthy` once
per second (`check_interval = 1.0`) while the elapsed time is below
`timeout`, so it answers true iff some tick `t < timeout` is healthy. -/
def wait_for_ready (health : Nat → Bool) (timeout : Nat) : Bool :=
  (List.range timeout).any health

/-- `ModelLifecycleManager.load_model`: unknown id fails with the
not-found error; an already-loaded model fails with the
already-loaded error before touching anything; then the server is
started, readiness is polled with the default 60 second timeout, and
on timeout the just-started server is stopped and the startup-timeout
error raised; on success the binding is recorded. -/
def load_model (cfg : ModelsConfig) (beh : AdapterBehavior) (now : Nat)
    (st : LifecycleState) (model_id : String) :
    Except LifecycleErrorKind String × LifecycleState :=
  match cfg.get_model model_id with
  | none => (Except.error LifecycleErrorKind.notFound, st)
  | some mc =>
    match st.current_model with
    | some _ => (Except.error LifecycleErrorKind.alreadyLoaded, st)
    | none =>
      if beh.startOk = false then
        (Except.error LifecycleErrorKind.startFailed, st)
      else
        let st1 : LifecycleState := { st with adapterRunning := true }
        if wait_for_ready beh.health 60 = true then
          (Except.ok model_id,
            { st1 with current_model := some mc, load_time := some now })
        else
          (Except.error LifecycleErrorKind.startupTimeout,
            { st1 with adapterRunning := false })

/-- `ModelLifecycleManager.unload_model`: no-op success when nothing is
loaded; otherwise `stop_server(graceful=True, timeout=30)` — when it
reports success the binding is cleared, when it reports failure a
`LifecycleError` is raised with the binding left as it was. -/
def unload_model (beh : AdapterBehavior) (st : LifecycleState) :
    Except LifecycleErrorKind String × LifecycleState :=
  match st.current_model with
  | none => (Except.ok "No model loaded", st)
  | some mc =>
    if beh.stopOk = true then
      (Except.ok mc.id,
        { current_model := none, load_time := none, adapterRunning := false })
    else
      (Except.error LifecycleErrorKind.stopFailed, st)

/-! ### Claim C1 -/

/-- Catalog for the C1 concrete instances. -/
def c1cfg : ModelsConfig :=
  { models := [{ id := "m1", name := "Model One", path := "/models/one.gguf" }] }

/-- State with a model already loaded, for the C1 concrete instances. -/
def c1st : LifecycleState :=
  { current_model := some { id := "m1", name := "Model One", path := "/models/one.gguf" },
    load_time := some 0, adapterRunning := true }

/-- Benign adapter behaviour for the C1 concrete instances. -/
def c1beh : AdapterBehavior :=
  { startOk := true, health := fun _ => true, stopOk := true }

/-- C1 as stated is false on the code: with a model already loaded,
`load_model` of an *unknown* backend id fails with the not-found error,
not the already-bound error, because the catalog lookup precedes the
already-loaded check (lifecycle.py lines 71-80).  The binding is still
not mutated. -/
theorem C1_counterexample :
    (load_model c1cfg c1beh 1 c1st "missing").1
      = Except.error LifecycleErrorKind.notFound
    ∧ LifecycleErrorKind.notFound ≠ LifecycleErrorKind.alreadyLoaded
    ∧ (load_model c1cfg c1beh 1 c1st "missing").2 = c1st := by
  exact ⟨rfl, by decide, rfl⟩

/-- C1 amended: whenever a model is already loaded, `load_model` always
fails and never mutates the binding (current model and load time are
exactly as before); for a backend id known to the catalog the error is
the already-bound one, while an unknown id fails with the not-found
error (the catalog lookup comes first).  Since the manager holds a
single optional binding, at most one backend is active at any time. -/
theorem C1_load_when_bound_fails_without_mutation
    (cfg : ModelsConfig) (beh : AdapterBehavior) (now : Nat)
    (st : LifecycleState) (model_id : String) (m : ModelConfig)
    (hcur : st.current_model = some m) :
    (load_model cfg beh now st model_id).2 = st
    ∧ (∀ r, (load_model cfg beh now st model_id).1 ≠ Except.ok r)
    ∧ ((cfg.get_model model_id).isSome →
        (load_model cfg beh now st model_id).1
          = Except.error LifecycleErrorKind.alreadyLoaded)
    ∧ (cfg.get_model model_id = none →
        (load_model cfg beh now st model_id).1
          = Except.error LifecycleErrorKind.notFound) := by
  cases hg : cfg.get_model model_id with
  | none =>
    refine ⟨?_, ?_, ?_, ?_⟩
    · simp [load_model, hg]
    · intro r
      simp [load_model, hg]
    · intro hs
      exact Bool.noConfusion hs
    · intro _
      simp [load_model, hg]
  | some mc =>
    refine ⟨?_, ?_, ?_, ?_⟩
    · simp [load_model, hg, hcur]
    · intro r
      simp [load_model, hg, hcur]
    · intro _
      simp [load_model, hg, hcur]
    · intro hn
      exact Option.noConfusion hn

/-- Witness instantiating the amended C1 at a known backend id with a
model already loaded. -/
theorem C1_load_when_bound_witness :
    (load_model c1cfg c1beh 1 c1st "m1").1
      = Except.error LifecycleErrorKind.alreadyLoaded
    ∧ (load_model c1cfg c1beh 1 c1st "m1").2 = c1st := by
  have h := C1_load_when_bound_fails_without_mutation c1cfg c1beh 1 c1st "m1"
    { id := "m1", name := "Model One", path := "/models/one.gguf" } rfl
  exact ⟨h.2.2.1 (by decide), h.1⟩

/-! ### Claim C2 -/

/-- The loaded model of the C2 concrete instances. -/
def c2model : ModelConfig :=
  { id := "m1", name := "Model One", path := "/models/one.gguf" }

/-- State with `c2model` loaded. -/
def c2st : LifecycleState :=
  { current_model := some c2model, load_time := some 0, adapterRunning := true }

/-- Adapter whose `stop_server` reports failure. -/
def c2behBad : AdapterBehavior :=
  { startOk := true, health := fun _ => true, stopOk := false }

/-- Adapter whose `stop_server` succeeds. -/
def c2behOk : AdapterBehavior :=
  { startOk := true, health := fun _ => true, stopOk := true }

/-- Unbound state for the C2 witness. -/
def c2stEmpty : LifecycleState :=
  { current_model := none, load_time := none, adapterRunning := false }

/-- C2 as stated is false on the code: when a model is bound and
`stop_server` reports failure, `unload_model` raises
`LifecycleError("Failed to stop server")` (lifecycle.py lines 140-143)
and the binding is *not* cleared — the resource is not freed. -/
theorem C2_counterexample :
    (unload_model c2behBad c2st).1
      = Except.error LifecycleErrorKind.stopFailed
    ∧ (unload_model c2behBad c2st).2.current_model = some c2model := by
  exact ⟨rfl, rfl⟩

/-- C2 amended: `unload_model` is a no-op success when nothing is
bound; when a model is bound it clears the binding (current model and
load time reset) exactly when terminating the subprocess succeeds,
and raises with the binding left intact when termination fails. -/
theorem C2_unload_behaviour (beh : AdapterBehavior) (st : LifecycleState) :
    (st.current_model = none →
      unload_model beh st = (Except.ok "No model loaded", st))
    ∧ (∀ m, st.current_model = some m →
        (beh.stopOk = true →
          unload_model beh st
            = (Except.ok m.id,
               { current_model := none, load_time := none,
                 adapterRunning := false }))
        ∧ (beh.stopOk = false →
          unload_model beh st
            = (Except.error LifecycleErrorKind.stopFailed, st))) := by
  constructor
  · intro h
    simp [unload_model, h]
  · intro m hm
    constructor
    · intro hs
      simp [unload_model, hm, hs]
    · intro hs
      simp [unload_model, hm, hs]

/-- Witness instantiating the amended C2: no-op success on an unbound
state, and a successful clear on a bound state. -/
theorem C2_unload_behaviour_witness :
    unload_model c2behOk c2stEmpty = (Except.ok "No model loaded", c2stEmpty)
    ∧ unload_model c2behOk c2st
      = (Except.ok "m1",
         { current_model := none, load_time := none,
           adapterRunning := false }) := by
  have h1 := (C2_unload_behaviour c2behOk c2stEmpty).1 rfl
  have h2 := ((C2_unload_behaviour c2behOk c2st).2 c2model rfl).1 rfl
  exact ⟨h1, h2⟩

/-! ### Claim C5 -/

/-- C5: readiness is polled at the health endpoint once per second
within the default 60 second window; whenever the backend is healthy at
no tick of that window, `load_model` returns the startup-timeout error
with the just-started adapter stopped again and no backend bound. -/
theorem C5_startup_timeout
    (cfg : ModelsConfig) (beh : AdapterBehavior) (now : Nat)
    (st : LifecycleState) (model_id : String) (m : ModelConfig)
    (hm : cfg.get_model model_id = some m)
    (hcur : st.current_model = none)
    (hstart : beh.startOk = true)
    (hnever : ∀ t, t < 60 → beh.health t = false) :
    wait_for_ready beh.health 60 = false
    ∧ load_model cfg beh now st model_id
      = (Except.error LifecycleErrorKind.startupTimeout,
         { st with adapterRunning := false })
    ∧ (load_model cfg beh now st model_id).2.current_model = none
    ∧ (load_model cfg beh now st model_id).2.adapterRunning = false := by
  have hw : wait_for_ready beh.health 60 = false := by
    rw [wait_for_ready]
    rw [List.any_eq_false]
    intro t ht
    rw [List.mem_range] at ht
    simp [hnever t ht]
  have heq : load_model cfg beh now st model_id
      = (Except.error LifecycleErrorKind.startupTimeout,
         { st with adapterRunning := false }) := by
    simp [load_model, hm, hcur, hstart, hw]
  refine ⟨hw, heq, ?_, ?_⟩
  · rw [heq]
    exact hcur
  · rw [heq]

/-- Catalog for the C5 witness. -/
def c5cfg : ModelsConfig :=
  { models := [{ id := "m1", name := "Model One", path := "/models/one.gguf" }] }

/-- Adapter that spawns fine but is never healthy. -/
def c5beh : AdapterBehavior :=
  { startOk := true, health := fun _ => false, stopOk := true }

/-- Witness instantiating C5: never-healthy backend, load times out and
nothing ends up bound. -/
theorem C5_startup_timeout_witness :
    load_model c5cfg c5beh 2
      { current_model := none, load_time := none, adapterRunning := false }
      "m1"
      = (Except.error LifecycleErrorKind.startupTimeout,
         { current_model := none, load_time := none,
           adapterRunning := false }) := by
  have h := C5_startup_timeout c5cfg c5beh 2
    { current_model := none, load_time := none, adapterRunning := false }
    "m1" { id := "m1", name := "Model One", path := "/models/one.gguf" }
    (by decide) rfl rfl (fun t _ => rfl)
  exact h.2.1

/-! ### Resource key normalization

`_normalize_gpu_id` is not among the sources (only its callers and the
script exercising it are), so it is modelled from the spec.  Strings
are `List Char` here so the split/strip/join reasoning is
self-contained. -/

/-- Modelled from the spec: the heterogeneous GPU-id input
(`Union[int, str]`) accepted by key normalization. -/
inductive GpuIdInput where
  | ofInt (n : Int)
  | ofStr (s : List Char)
deriving DecidableEq, Repr

/-- Modelled from the spec: `_normalize_gpu_id` — accepts an integer, a
numeric string, a comma-joined string, or the legacy token `both`;
emits the canonical ascending-sorted comma-joined form with no
whitespace; `both` maps to the two-lowest-index default pair; malformed
input is rejected (`InvalidResourceKey`, the `error` branch). -/
def normalize_gpu_id : GpuIdInput → Except Unit (List Char)
  | GpuIdInput.ofInt n =>
    if n < 0 then Except.error () else Except.ok (natRepr n.toNat)
  | GpuIdInput.ofStr s =>
    if s = "both".data then Except.ok "0,1".data
    else
      let parts := (splitComma s).map stripChars
      if parts.any (fun p => p.isEmpty || !p.all Char.isDigit) then
        Except.error ()
      else
        Except.ok (joinComma
          ((List.insertionSort (· ≤ ·)
            (parts.map (digitsToNatAux 0))).map natRepr))

/-- Boolean non-decreasing test. -/
def sortedLe : List Nat → Bool
  | [] => true
  | [_] => true
  | a :: b :: t => decide (a ≤ b) && sortedLe (b :: t)

/-- Modelled from the spec: checker for the canonical resource-key form
— comma-joined nonempty all-digit parts (hence no whitespace) whose
values are ascending. -/
def isCanonicalKey (s : List Char) : Bool :=
  let parts := splitComma s
  parts.all (fun p => !p.isEmpty && p.all Char.isDigit)
    && sortedLe (parts.map (digitsToNatAux 0))

theorem digitsToNatAux_natRepr (m : Nat) : digitsToNatAux 0 (natRepr m) = m := by
  by_cases h : m = 0
  · subst h; rfl
  · rw [natRepr, if_neg h, digitsToNatAux_reverse_natDigitsRev m 0]
    simp

theorem natRepr_ne_nil (n : Nat) : natRepr n ≠ [] := by
  rw [natRepr]
  by_cases h : n = 0
  · simp [h]
  · rw [if_neg h]
    intro hc
    rw [List.reverse_eq_nil_iff] at hc
    rw [natDigitsRev_eq, if_neg h] at hc
    cases hc

theorem joinComma_mem {c : Char} : ∀ {ps : List (List Char)},
    c ∈ joinComma ps → (∃ p ∈ ps, c ∈ p) ∨ c = ',' := by
  intro ps
  induction ps with
  | nil => intro h; cases h
  | cons p rest ih =>
    intro h
    cases rest with
    | nil =>
      rw [joinComma] at h
      exact Or.inl ⟨p, List.mem_cons_self p [], h⟩
    | cons q rest' =>
      rw [joinComma, List.mem_append] at h
      rcases h with h | h
      · exact Or.inl ⟨p, List.mem_cons_self p (q :: rest'), h⟩
      · rcases List.mem_cons.mp h with h | h
        · exact Or.inr h
        · rcases ih h with ⟨p', hp', hc⟩ | h
          · exact Or.inl ⟨p', List.mem_cons_of_mem p hp', hc⟩
          · exact Or.inr h

theorem sortedLe_of_sorted : ∀ {l : List Nat},
    List.Sorted (· ≤ ·) l → sortedLe l = true := by
  intro l
  induction l with
  | nil => intro _; rfl
  | cons a t ih =>
    intro h
    rw [List.sorted_cons] at h
    cases t with
    | nil => rfl
    | cons b t' =>
      rw [sortedLe, Bool.and_eq_true]
      exact ⟨decide_eq_true (h.1 b (List.mem_cons_self b t')),
        ih h.2⟩

/-- The canonical rendering of a nonempty multiset of indices
re-normalizes to itself and passes the canonical-form checker. -/
theorem normalize_canonical_roundtrip (nats : List Nat) (hne : nats ≠ []) :
    normalize_gpu_id (GpuIdInput.ofStr (joinComma
        ((List.insertionSort (· ≤ ·) nats).map natRepr)))
      = Except.ok (joinComma ((List.insertionSort (· ≤ ·) nats).map natRepr))
    ∧ isCanonicalKey (joinComma
        ((List.insertionSort (· ≤ ·) nats).map natRepr)) = true := by
  set s' := List.insertionSort (· ≤ ·) nats with hs'
  have hs'ne : s' ≠ [] := by
    intro hc
    have := List.length_insertionSort (· ≤ ·) nats
    rw [← hs', hc] at this
    exact hne (List.eq_nil_of_length_eq_zero this.symm)
  set ps := s'.map natRepr with hps
  have hpsne : ps ≠ [] := by
    intro hc
    rw [hps, List.map_eq_nil_iff] at hc
    exact hs'ne hc
  have hmem : ∀ p ∈ ps, ∃ m, p = natRepr m := by
    intro p hp
    rw [hps] at hp
    rcases List.mem_map.mp hp with ⟨m, _, hm⟩
    exact ⟨m, hm.symm⟩
  have hdigits : ∀ p ∈ ps, ∀ c ∈ p, c.isDigit = true := by
    intro p hp c hc
    rcases hmem p hp with ⟨m, hm⟩
    exact natRepr_all_digits m c (hm ▸ hc)
  have hnocomma : ∀ p ∈ ps, ∀ c ∈ p, c ≠ ',' := by
    intro p hp c hc
    exact isDigit_ne_comma (hdigits p hp c hc)
  set r := joinComma ps with hr
  have hrboth : r ≠ "both".data := by
    intro hc
    have hb : 'b' ∈ r := by rw [hc]; decide
    rcases joinComma_mem hb with ⟨p, hp, hcp⟩ | hcomma
    · exact absurd (hdigits p hp 'b' hcp) (by decide)
    · exact absurd hcomma (by decide)
  have hsplit : splitComma r = ps := splitComma_joinComma hpsne hnocomma
  have hstrip : ps.map stripChars = ps := by
    have : ∀ p ∈ ps, stripChars p = p :=
      fun p hp => stripChars_of_all_digits (hdigits p hp)
    calc ps.map stripChars = ps.map id := List.map_congr_left this
      _ = ps := List.map_id ps
  have hvalid : (ps.map stripChars).any
      (fun p => p.isEmpty || !p.all Char.isDigit) = false := by
    rw [hstrip, List.any_eq_false]
    intro p hp
    rw [Bool.not_eq_true, Bool.or_eq_false_iff]
    constructor
    · rcases hmem p hp with ⟨m, hm⟩
      subst hm
      rw [List.isEmpty_eq_false_iff_exists_mem]
      rcases List.exists_mem_of_ne_nil _ (natRepr_ne_nil m) with ⟨c, hc⟩
      exact ⟨c, hc⟩
    · rw [Bool.not_eq_false', List.all_eq_true]
      exact hdigits p hp
  have hnats : (ps.map stripChars).map (digitsToNatAux 0) = s' := by
    rw [hstrip, hps, List.map_map]
    have hco : (digitsToNatAux 0) ∘ natRepr = id := funext digitsToNatAux_natRepr
    rw [hco, List.map_id]
  have hsorted : List.Sorted (· ≤ ·) s' := List.sorted_insertionSort (· ≤ ·) nats
  have hidem : List.insertionSort (· ≤ ·) s' = s' := hsorted.insertionSort_eq
  have hcond : ((splitComma r).map stripChars).any
      (fun p => p.isEmpty || !p.all Char.isDigit) = false := by
    rw [hsplit]; exact hvalid
  constructor
  · simp only [normalize_gpu_id]
    rw [if_neg hrboth, if_neg (by rw [hcond]; exact Bool.false_ne_true),
      hsplit, hnats, hidem]
  · simp only [isCanonicalKey]
    rw [hsplit, Bool.and_eq_true]
    constructor
    · rw [List.all_eq_true]
      intro p hp
      rw [Bool.and_eq_true]
      constructor
      · rw [Bool.not_eq_true', List.isEmpty_eq_false_iff_exists_mem]
        rcases hmem p hp with ⟨m, hm⟩
        subst hm
        rcases List.exists_mem_of_ne_nil _ (natRepr_ne_nil m) with ⟨c, hc⟩
        exact ⟨c, hc⟩
      · rw [List.all_eq_true]
        exact hdigits p hp
    · have hmap : ps.map (digitsToNatAux 0) = s' := by
        rw [hps, List.map_map]
        have hco : (digitsToNatAux 0) ∘ natRepr = id :=
          funext digitsToNatAux_natRepr
        rw [hco, List.map_id]
      rw [hmap]
      exact sortedLe_of_sorted hsorted

/-! ### Claim C10 -/

/-- C10: resource-key normalization is total and idempotent — every
non-negative integer maps to its decimal rendering and negative
integers are rejected; the legacy token `both` maps to the two-lowest
pair `0,1`; every successful result is in canonical ascending-sorted
comma-joined digit form (hence without whitespace) and re-normalizes to
itself; and a non-`both` string is rejected exactly when some stripped
comma-part is empty or not all digits.  The function is deterministic
by construction. -/
theorem C10_normalize_total_idempotent :
    (∀ n : Nat, normalize_gpu_id (GpuIdInput.ofInt (n : Int))
        = Except.ok (natRepr n))
    ∧ (∀ n : Int, n < 0 →
        normalize_gpu_id (GpuIdInput.ofInt n) = Except.error ())
    ∧ normalize_gpu_id (GpuIdInput.ofStr "both".data) = Except.ok "0,1".data
    ∧ (∀ x r, normalize_gpu_id x = Except.ok r →
        isCanonicalKey r = true
        ∧ normalize_gpu_id (GpuIdInput.ofStr r) = Except.ok r)
    ∧ (∀ s, s ≠ "both".data →
        (normalize_gpu_id (GpuIdInput.ofStr s) = Except.error ()
          ↔ ((splitComma s).map stripChars).any
              (fun p => p.isEmpty || !p.all Char.isDigit) = true)) := by
  refine ⟨?_, ?_, by decide, ?_, ?_⟩
  · intro n
    have hnn : ¬ ((n : Int) < 0) := Int.not_lt.mpr (Int.natCast_nonneg n)
    simp only [normalize_gpu_id]
    rw [if_neg hnn, Int.toNat_natCast]
  · intro n h
    simp only [normalize_gpu_id]
    rw [if_pos h]
  · intro x r h
    cases x with
    | ofInt n =>
      simp only [normalize_gpu_id] at h
      by_cases hn : n < 0
      · rw [if_pos hn] at h
        exact Except.noConfusion h
      · rw [if_neg hn] at h
        injection h with hr
        subst hr
        have h' := normalize_canonical_roundtrip [n.toNat] (by simp)
        have hjoin : joinComma ((List.insertionSort (· ≤ ·) [n.toNat]).map natRepr)
            = natRepr n.toNat := rfl
        rw [hjoin] at h'
        exact ⟨h'.2, h'.1⟩
    | ofStr s =>
      simp only [normalize_gpu_id] at h
      by_cases hb : s = "both".data
      · rw [if_pos hb] at h
        injection h with hr
        subst hr
        exact ⟨by decide, by decide⟩
      · rw [if_neg hb] at h
        by_cases hc : ((splitComma s).map stripChars).any
            (fun p => p.isEmpty || !p.all Char.isDigit) = true
        · rw [if_pos hc] at h
          exact Except.noConfusion h
        · rw [if_neg hc] at h
          injection h with hr
          subst hr
          have hne : ((splitComma s).map stripChars).map (digitsToNatAux 0) ≠ [] := by
            intro hcn
            rw [List.map_eq_nil_iff, List.map_eq_nil_iff] at hcn
            exact splitComma_ne_nil s hcn
          have h' := normalize_canonical_roundtrip
            (((splitComma s).map stripChars).map (digitsToNatAux 0)) hne
          exact ⟨h'.2, h'.1⟩
  · intro s hb
    simp only [normalize_gpu_id]
    rw [if_neg hb]
    constructor
    · intro h
      by_cases hc : ((splitComma s).map stripChars).any
          (fun p => p.isEmpty || !p.all Char.isDigit) = true
      · exact hc
      · rw [if_neg hc] at h
        exact Except.noConfusion h
    · intro hc
      rw [if_pos hc]

/-- Witness instantiating C10: a messy comma-joined input (unsorted,
with a space) normalizes to the canonical `0,1,2`, which re-normalizes
to itself; an integer input normalizes to its decimal rendering. -/
theorem C10_normalize_total_idempotent_witness :
    normalize_gpu_id (GpuIdInput.ofStr "2,0, 1".data)
      = Except.ok "0,1,2".data
    ∧ isCanonicalKey "0,1,2".data = true
    ∧ normalize_gpu_id (GpuIdInput.ofStr "0,1,2".data)
      = Except.ok "0,1,2".data
    ∧ normalize_gpu_id (GpuIdInput.ofInt 3) = Except.ok (natRepr 3) := by
  have h0 : normalize_gpu_id (GpuIdInput.ofStr "2,0, 1".data)
      = Except.ok "0,1,2".data := by decide
  have h := C10_normalize_total_idempotent.2.2.2.1
    (GpuIdInput.ofStr "2,0, 1".data) "0,1,2".data h0
  exact ⟨h0, h.1, h.2, C10_normalize_total_idempotent.1 3⟩

end LlamaController
